import Mathlib

/-!
Verification of the feature-extraction bridge (`pyannote/audio/features/with_yaafe.py`)
and the timing model of the debug segmentation module
(`pyannote/audio/models/segmentation/debug.py`).

The Python code is shallowly embedded: Python floats that hold exact decimal
configuration values (durations, steps) are modelled as rationals, Python ints as
`ℤ`/`ℕ`, raised exceptions as `Except PyErr`, and the mutable attribute
`sample_rate_` (first assigned inside `__call__`) as an `Option ℕ` field of the
extractor value.
-/

/-- Python `int()` applied to a non-integral number: truncation toward zero. -/
def pyInt (q : ℚ) : ℤ := if q < 0 then ⌈q⌉ else ⌊q⌋

/-- A Python `bool` used in integer arithmetic (`True` counts as 1, `False` as 0). -/
def b2n (b : Bool) : ℕ := if b then 1 else 0

/-- The Python exceptions the embedded fragment can raise. -/
inductive PyErr
  | attributeError
  | assertionError
  | indexError
  deriving DecidableEq

/-- One extractor object of `with_yaafe.py`.  The three variants mirror the classes
`YaafeZCR`, `YaafeMFCC` and `YaafeCompound`; the `sampleRate` field models the
optional instance attribute `sample_rate_`, which exists only after the first
`__call__` (it is `none` on a freshly constructed object). -/
inductive Extractor
  | zcr (duration step : ℚ) (sampleRate : Option ℕ)
  | mfcc (duration step : ℚ) (e : Bool) (coefs : ℕ) (De DDe D DD : Bool)
      (sampleRate : Option ℕ)
  | compound (duration step : ℚ) (children : List Extractor) (sampleRate : Option ℕ)

/-- The `duration` attribute set by `YaafeFeatureExtractor.__init__`. -/
def Extractor.duration : Extractor → ℚ
  | .zcr d _ _ => d
  | .mfcc d _ _ _ _ _ _ _ _ => d
  | .compound d _ _ _ => d

/-- The `step` attribute set by `YaafeFeatureExtractor.__init__`. -/
def Extractor.step : Extractor → ℚ
  | .zcr _ s _ => s
  | .mfcc _ s _ _ _ _ _ _ _ => s
  | .compound _ s _ _ => s

/-- Name of the ZCR feature in `YaafeZCR.definition`. -/
def zcrName : String := "zcr"

/-- Name of the base MFCC feature in `YaafeMFCC.definition`. -/
def mfccName : String := "mfcc"

/-- Name of the first-derivative MFCC feature in `YaafeMFCC.definition`. -/
def mfccDName : String := "mfcc_d"

/-- Name of the second-derivative MFCC feature in `YaafeMFCC.definition`. -/
def mfccDDName : String := "mfcc_dd"

/-- Leading text of the ZCR parameter string. -/
def zcrPre : String := "ZCR blockSize="

/-- Text preceding the step size in the ZCR and MFCC parameter strings. -/
def stepPre : String := " stepSize="

/-- Leading text of the MFCC parameter strings. -/
def mfccPre : String := "MFCC CepsIgnoreFirstCoeff="

/-- Text preceding the coefficient count in the MFCC parameter strings. -/
def nbPre : String := " CepsNbCoeffs="

/-- Text preceding the block size in the MFCC parameter strings. -/
def blockPre : String := " blockSize="

/-- Pipe suffix of the first-derivative MFCC parameter string. -/
def deriv1Suf : String := " > Derivate DOrder=1"

/-- Pipe suffix of the second-derivative MFCC parameter string. -/
def deriv2Suf : String := " > Derivate DOrder=2"

/-- The formatted parameter string `"ZCR blockSize=%d stepSize=%d"`. -/
def zcrRecipeStr (bs ss : ℤ) : String :=
  zcrPre ++ toString bs ++ stepPre ++ toString ss

/-- The formatted parameter string
`"MFCC CepsIgnoreFirstCoeff=%d CepsNbCoeffs=%d blockSize=%d stepSize=%d"`. -/
def mfccRecipeStr (ig nb : ℕ) (bs ss : ℤ) : String :=
  mfccPre ++ toString ig ++ nbPre ++ toString nb ++ blockPre ++ toString bs ++
    stepPre ++ toString ss

/-- `int(sample_rate_ * q)` as computed in the `definition` methods for both the
block size (`q` the duration) and the step size (`q` the step). -/
def blockSizeOf (sr : ℕ) (q : ℚ) : ℤ := pyInt ((sr : ℚ) * q)

mutual

/-- The `definition()` method of each extractor class.  Reading the missing
attribute `sample_rate_` on a leaf raises `AttributeError`;
`YaafeCompound.definition` concatenates the children's instruction lists
(each child reading its own `sample_rate_`). -/
def Extractor.definition : Extractor → Except PyErr (List (String × String))
  | .zcr _ _ none => .error .attributeError
  | .zcr dur st (some sr) =>
      .ok [(zcrName, zcrRecipeStr (blockSizeOf sr dur) (blockSizeOf sr st))]
  | .mfcc _ _ _ _ _ _ _ _ none => .error .attributeError
  | .mfcc dur st e coefs De DDe D DD (some sr) =>
      .ok ([(mfccName,
              mfccRecipeStr (if e then 0 else 1) (coefs + b2n e * 1)
                (blockSizeOf sr dur) (blockSizeOf sr st))]
        ++ (if De || D then
              [(mfccDName,
                 mfccRecipeStr (if De then 0 else 1) (b2n D * coefs + b2n De * 1)
                   (blockSizeOf sr dur) (blockSizeOf sr st) ++ deriv1Suf)]
            else [])
        ++ (if DDe || DD then
              [(mfccDDName,
                 mfccRecipeStr (if DDe then 0 else 1) (b2n DD * coefs + b2n DDe * 1)
                   (blockSizeOf sr dur) (blockSizeOf sr st) ++ deriv2Suf)]
            else []))
  | .compound _ _ ch _ => defList ch

/-- The list comprehension
`[(name, recipe) for e in self.extractors for name, recipe in e.definition()]`:
children are queried in order and the first raised exception propagates. -/
def defList : List Extractor → Except PyErr (List (String × String))
  | [] => .ok []
  | c :: cs =>
      match c.definition with
      | .error err => .error err
      | .ok l =>
          match defList cs with
          | .error err => .error err
          | .ok ls => .ok (l ++ ls)

end

mutual

/-- The `dimension()` method of each extractor class, with Python booleans
contributing 0 or 1 to the sums exactly as in `YaafeMFCC.dimension`. -/
def Extractor.dimension : Extractor → ℕ
  | .zcr _ _ _ => 1
  | .mfcc _ _ e coefs De DDe D DD _ =>
      b2n e + b2n De + b2n DDe + coefs + coefs * b2n D + coefs * b2n DD
  | .compound _ _ ch _ => dimSum ch

/-- `sum(extractor.dimension() for extractor in self.extractors)`. -/
def dimSum : List Extractor → ℕ
  | [] => 0
  | c :: cs => Extractor.dimension c + dimSum cs

end

/-- A stand-in for Python's opaque `hash` on the tuple of instruction pairs.  The
concrete value is irrelevant to every property below; only whether hashing raises
matters. -/
def tupleHash (l : List (String × String)) : ℕ :=
  (l.map fun p => p.1.length + p.2.length).sum

/-- Python `hash` on an extractor object.  Only `YaafeCompound` defines
`__hash__` (lines 147-148: `hash(tuple(self.definition()))`, which raises
exactly when `definition()` raises); `YaafeZCR` and `YaafeMFCC` define none, so
hashing a leaf falls back to Python's default id-based object hash, which
always succeeds with an opaque value — modelled by an arbitrary constant, since
only success or failure matters to the properties below. -/
def Extractor.hashE : Extractor → Except PyErr ℕ
  | .zcr _ _ _ => .ok 0
  | .mfcc _ _ _ _ _ _ _ _ _ => .ok 0
  | .compound d s ch sr =>
      (Extractor.definition (.compound d s ch sr)).map tupleHash

/-- `YaafeCompound.__init__`: the two `assert` statements check that every child
extractor agrees exactly on `duration` and on `step` before the compound object is
built; the freshly built object has no `sample_rate_` attribute yet. -/
def mkCompound (extractors : List Extractor) (duration step : ℚ) :
    Except PyErr Extractor :=
  if extractors.all (fun x => x.duration == duration) then
    if extractors.all (fun x => x.step == step) then
      .ok (.compound duration step extractors none)
    else .error .assertionError
  else .error .assertionError

mutual

/-- An extractor on which no extraction call was ever made: no `sample_rate_`
attribute exists anywhere in it. -/
def freshB : Extractor → Bool
  | .zcr _ _ sr => sr.isNone
  | .mfcc _ _ _ _ _ _ _ _ sr => sr.isNone
  | .compound _ _ ch sr => sr.isNone && freshList ch

/-- All members of a child list are fresh. -/
def freshList : List Extractor → Bool
  | [] => true
  | c :: cs => freshB c && freshList cs

end

mutual

/-- The extractor contains at least one leaf recipe (ZCR or MFCC). -/
def hasLeafB : Extractor → Bool
  | .zcr _ _ _ => true
  | .mfcc _ _ _ _ _ _ _ _ _ => true
  | .compound _ _ ch _ => hasLeafList ch

/-- Some member of a child list contains a leaf recipe. -/
def hasLeafList : List Extractor → Bool
  | [] => false
  | c :: cs => hasLeafB c || hasLeafList cs

end

/-- NumPy column selection `y[:, idx]` on an array with `n` columns: a negative
index wraps by adding `n`; an index outside `[-n, n)` raises `IndexError`. -/
def numpyColIndex (n : ℕ) (idx : ℤ) : Except PyErr ℕ :=
  if idx < 0 then
    if 0 ≤ idx + n then .ok (idx + n).toNat else .error .indexError
  else
    if idx < n then .ok idx.toNat else .error .indexError

/-- Lines 106-111 of `with_yaafe.py`: after a mono signal is reshaped to a single
column, the requested 1-based channel selects column `channel - 1` of the signal
with NumPy indexing semantics. -/
def selectChannel (nChannels : ℕ) (channel : ℤ) : Except PyErr ℕ :=
  numpyColIndex nChannels (channel - 1)

/-- One float of the feature matrix: either an ordinary number or NaN. -/
inductive Val
  | num (q : ℚ)
  | nan
  deriving DecidableEq

/-- `np.isnan` on one value. -/
def Val.isNaN : Val → Bool
  | .nan => true
  | .num _ => false

/-- `np.any(np.isnan(data))` over the stacked feature matrix. -/
def anyNaN (data : List (List Val)) : Bool :=
  data.any fun row => row.any Val.isNaN

/-- Text of the NaN warning before the unique identifier. -/
def nanMsgA : String := "Features extracted from \""

/-- Text of the NaN warning after the unique identifier. -/
def nanMsgB : String := "\" contain NaNs."

/-- The formatted warning message
`'Features extracted from "{uri}" contain NaNs.'.format(uri=uri)`. -/
def nanMsg (uri : String) : String := nanMsgA ++ uri ++ nanMsgB

/-- Lines 121-126 of `with_yaafe.py`: the tail of `__call__`.  It returns the
emitted warnings together with the data wrapped into the result; the data itself
is never modified and no exception is raised here. -/
def finishExtraction (data : List (List Val)) (uri : String) :
    List String × List (List Val) :=
  (if anyNaN data then [nanMsg uri] else [], data)

/-- The fixed spectrogram configuration read by `SimpleSegmentationModel` from its
MFCC transform: `hop_length`, `n_fft` (the window length of the transform, which
torchaudio defaults to the FFT size) and `center`. -/
structure SegModelCfg where
  hop_length : ℕ
  n_fft : ℕ
  center : Bool

/-- `SimpleSegmentationModel.num_frames`, with Python's floor division `//`
modelled by `Int.fdiv`. -/
def num_frames (m : SegModelCfg) (num_samples : ℕ) : ℤ :=
  if m.center then 1 + Int.fdiv (num_samples : ℤ) (m.hop_length : ℤ)
  else 1 + Int.fdiv ((num_samples : ℤ) - (m.n_fft : ℤ)) (m.hop_length : ℤ)

/-- Induction over extractor trees, with the member hypothesis for compound
children. -/
theorem extractor_ind (motive : Extractor → Prop)
    (hz : ∀ d s sr, motive (.zcr d s sr))
    (hm : ∀ d s e c De DDe D DD sr, motive (.mfcc d s e c De DDe D DD sr))
    (hc : ∀ d s ch sr, (∀ c ∈ ch, motive c) → motive (.compound d s ch sr)) :
    ∀ ex, motive ex := by
  intro ex
  refine @Extractor.rec motive (fun l => ∀ c ∈ l, motive c) hz hm ?_ ?_ ?_ ex
  · intro d s ch sr ih
    exact hc d s ch sr ih
  · intro c hmem
    cases hmem
  · intro head tail ihh iht c hmem
    cases hmem with
    | head => exact ihh
    | tail _ h => exact iht c h

/-- `int()` agrees with the floor on the nonnegative values that arise here. -/
lemma pyInt_of_nonneg (q : ℚ) (h : 0 ≤ q) : pyInt q = ⌊q⌋ := by
  rw [pyInt, if_neg (not_lt.mpr h)]

/-- The embedded block/step sizes are floors for nonnegative durations/steps. -/
lemma blockSizeOf_floor (sr : ℕ) (q : ℚ) (h : 0 ≤ q) :
    blockSizeOf sr q = ⌊(sr : ℚ) * q⌋ := by
  rw [blockSizeOf, pyInt_of_nonneg]
  exact mul_nonneg (by positivity) h

/-- When every child's `definition()` succeeds, the compound comprehension
returns the concatenation of the children's lists, in child order. -/
lemma defList_ok_of_forall₂ (ch : List Extractor) (ls : List (List (String × String)))
    (h : List.Forall₂ (fun c l => Extractor.definition c = .ok l) ch ls) :
    defList ch = .ok ls.flatten := by
  induction h with
  | nil => rfl
  | cons hcl _ ih =>
      simp only [defList]
      rw [hcl, ih]
      simp [List.flatten]

/-- The compound dimension sum equals the sum of the mapped dimensions. -/
lemma dimSum_eq_sum (ch : List Extractor) :
    dimSum ch = (ch.map Extractor.dimension).sum := by
  induction ch with
  | nil => rfl
  | cons c cs ih => simp [dimSum, ih]

/-- List part of `defError_attr`. -/
lemma defList_error_attr (ch : List Extractor)
    (ih : ∀ c ∈ ch, ∀ err, Extractor.definition c = .error err → err = .attributeError) :
    ∀ err, defList ch = .error err → err = .attributeError := by
  induction ch with
  | nil => intro err h; simp only [defList] at h; cases h
  | cons c cs ihl =>
      intro err h
      simp only [defList] at h
      cases hc : Extractor.definition c with
      | error e =>
          rw [hc] at h
          injection h with h2
          rw [← h2]
          exact ih c (by simp) e hc
      | ok l =>
          rw [hc] at h
          cases hcs : defList cs with
          | error e =>
              rw [hcs] at h
              injection h with h2
              rw [← h2]
              exact ihl (fun x hx => ih x (by simp [hx])) e hcs
          | ok ls => rw [hcs] at h; cases h

/-- The only exception `definition()` can raise is the `AttributeError` coming
from a missing `sample_rate_`; in particular no duration/step mismatch is ever
detected at instruction-building time. -/
lemma defError_attr :
    ∀ ex, ∀ err, Extractor.definition ex = .error err → err = .attributeError := by
  refine extractor_ind _ ?_ ?_ ?_
  · intro d s sr err h
    cases sr with
    | none => simp only [Extractor.definition] at h; cases h; rfl
    | some r => simp only [Extractor.definition] at h; cases h
  · intro d s e c De DDe D DD sr err h
    cases sr with
    | none => simp only [Extractor.definition] at h; cases h; rfl
    | some r => simp only [Extractor.definition] at h; cases h
  · intro d s ch sr ih err h
    simp only [Extractor.definition] at h
    exact defList_error_attr ch ih err h

/-- List part of `def_fresh_dichotomy`. -/
lemma defList_fresh_dichotomy (ch : List Extractor)
    (ih : ∀ c ∈ ch, freshB c = true →
      (hasLeafB c = true ∧ Extractor.definition c = .error .attributeError) ∨
      (hasLeafB c = false ∧ Extractor.definition c = .ok []))
    (hf : freshList ch = true) :
    (hasLeafList ch = true ∧ defList ch = .error .attributeError) ∨
    (hasLeafList ch = false ∧ defList ch = .ok []) := by
  induction ch with
  | nil => exact Or.inr ⟨rfl, rfl⟩
  | cons c cs ihl =>
      simp only [freshList, Bool.and_eq_true] at hf
      rcases ih c (by simp) hf.1 with ⟨hl, hd⟩ | ⟨hl, hd⟩
      · refine Or.inl ⟨?_, ?_⟩
        · simp [hasLeafList, hl]
        · simp only [defList]
          rw [hd]
      · rcases ihl (fun x hx hfx => ih x (by simp [hx]) hfx) hf.2 with ⟨hls, hds⟩ | ⟨hls, hds⟩
        · refine Or.inl ⟨?_, ?_⟩
          · simp [hasLeafList, hls]
          · simp only [defList]
            rw [hd, hds]
        · refine Or.inr ⟨?_, ?_⟩
          · simp [hasLeafList, hl, hls]
          · simp [defList, hd, hds]

/-- A fresh extractor either contains a leaf recipe and raises `AttributeError`,
or is built from nothing but empty compounds and returns the empty instruction
list. -/
lemma def_fresh_dichotomy :
    ∀ ex, freshB ex = true →
      (hasLeafB ex = true ∧ Extractor.definition ex = .error .attributeError) ∨
      (hasLeafB ex = false ∧ Extractor.definition ex = .ok []) := by
  refine extractor_ind _ ?_ ?_ ?_
  · intro d s sr hf
    cases sr with
    | none => exact Or.inl ⟨rfl, rfl⟩
    | some r => simp [freshB] at hf
  · intro d s e c De DDe D DD sr hf
    cases sr with
    | none => exact Or.inl ⟨rfl, rfl⟩
    | some r => simp [freshB] at hf
  · intro d s ch sr ih hf
    simp only [freshB, Bool.and_eq_true] at hf
    rcases defList_fresh_dichotomy ch ih hf.2 with ⟨hl, hd⟩ | ⟨hl, hd⟩
    · exact Or.inl ⟨by simpa [hasLeafB] using hl, by simpa [Extractor.definition] using hd⟩
    · exact Or.inr ⟨by simpa [hasLeafB] using hl, by simpa [Extractor.definition] using hd⟩

/-- C1, counterexample: at sample rate 11025 with the default duration 0.025 and
step 0.010 the ZCR instruction embeds block size int(275.625) = 275, while
round(275.625) = 276, so the embedded block size is not round(sample_rate *
duration). -/
theorem c1_counterexample :
    Extractor.definition (.zcr (1/40) (1/100) (some 11025)) =
      .ok [(zcrName, zcrRecipeStr 275 110)] ∧
    round ((11025 : ℚ) * (1/40)) = 276 ∧
    zcrRecipeStr 275 110 ≠ zcrRecipeStr 276 110 := by
  refine ⟨?_, ?_, ?_⟩
  · have h1 : blockSizeOf 11025 (1/40) = 275 := by
      rw [blockSizeOf, pyInt]
      norm_num [Int.floor_eq_iff]
    have h2 : blockSizeOf 11025 (1/100) = 110 := by
      rw [blockSizeOf, pyInt]
      norm_num [Int.floor_eq_iff]
    simp only [Extractor.definition]
    rw [h1, h2]
  · norm_num [round_eq, Int.floor_eq_iff]
  · decide

/-- C1 as amended: for both leaf variants (ZCR, MFCC) and every observed sample
rate, the block and step sizes embedded in every emitted parameter string are
int(sample_rate * duration) and int(sample_rate * step) — truncations, equal to
the floors for the nonnegative durations and steps that occur — recomputed from
the extractor's current sample-rate field on each call of the
instruction-building operation. -/
theorem c1_theorem (dur st : ℚ) (hd : 0 ≤ dur) (hs : 0 ≤ st) (sr : ℕ)
    (e : Bool) (coefs : ℕ) (De DDe D DD : Bool) :
    Extractor.definition (.zcr dur st (some sr)) =
      .ok [(zcrName, zcrRecipeStr ⌊(sr : ℚ) * dur⌋ ⌊(sr : ℚ) * st⌋)] ∧
    Extractor.definition (.mfcc dur st e coefs De DDe D DD (some sr)) =
      .ok ([(mfccName, mfccRecipeStr (if e then 0 else 1) (coefs + b2n e * 1)
               ⌊(sr : ℚ) * dur⌋ ⌊(sr : ℚ) * st⌋)]
        ++ (if De || D then
              [(mfccDName, mfccRecipeStr (if De then 0 else 1)
                  (b2n D * coefs + b2n De * 1) ⌊(sr : ℚ) * dur⌋ ⌊(sr : ℚ) * st⌋
                  ++ deriv1Suf)]
            else [])
        ++ (if DDe || DD then
              [(mfccDDName, mfccRecipeStr (if DDe then 0 else 1)
                  (b2n DD * coefs + b2n DDe * 1) ⌊(sr : ℚ) * dur⌋ ⌊(sr : ℚ) * st⌋
                  ++ deriv2Suf)]
            else [])) := by
  have h1 := blockSizeOf_floor sr dur hd
  have h2 := blockSizeOf_floor sr st hs
  constructor
  · simp only [Extractor.definition]
    rw [h1, h2]
  · simp only [Extractor.definition]
    rw [h1, h2]

/-- Witness for C1 at duration 1, step 1, sample rate 16000. -/
theorem c1_witness :
    (0 : ℚ) ≤ 1 ∧
    (Extractor.definition (.zcr 1 1 (some 16000)) =
      .ok [(zcrName, zcrRecipeStr ⌊((16000 : ℕ) : ℚ) * 1⌋ ⌊((16000 : ℕ) : ℚ) * 1⌋)] ∧
    Extractor.definition (.mfcc 1 1 true 11 false false false false (some 16000)) =
      .ok ([(mfccName, mfccRecipeStr (if true then 0 else 1) (11 + b2n true * 1)
               ⌊((16000 : ℕ) : ℚ) * 1⌋ ⌊((16000 : ℕ) : ℚ) * 1⌋)]
        ++ (if false || false then
              [(mfccDName, mfccRecipeStr (if false then 0 else 1)
                  (b2n false * 11 + b2n false * 1) ⌊((16000 : ℕ) : ℚ) * 1⌋
                  ⌊((16000 : ℕ) : ℚ) * 1⌋ ++ deriv1Suf)]
            else [])
        ++ (if false || false then
              [(mfccDDName, mfccRecipeStr (if false then 0 else 1)
                  (b2n false * 11 + b2n false * 1) ⌊((16000 : ℕ) : ℚ) * 1⌋
                  ⌊((16000 : ℕ) : ℚ) * 1⌋ ++ deriv2Suf)]
            else []))) :=
  ⟨zero_le_one,
   c1_theorem 1 1 zero_le_one zero_le_one 16000 true 11 false false false false⟩

/-- C2, counterexample: on a two-channel signal the out-of-bounds 1-based
selector 0 does not raise; NumPy negative indexing silently wraps it to the last
channel (0-based index 1). -/
theorem c2_counterexample :
    selectChannel 2 0 = .ok 1 ∧ selectChannel 2 0 ≠ .error .indexError := by
  constructor
  · simp [selectChannel, numpyColIndex]
  · simp [selectChannel, numpyColIndex]

/-- C2 as amended: selectors above the channel count, and selectors at or below
minus the channel count, raise an index error; selectors between 1-n and 0 are
silently wrapped by NumPy negative indexing (selector 0 picks the last channel);
selectors between 1 and n pick channel selector-1. -/
theorem c2_theorem (n : ℕ) (ch : ℤ) :
    (((n : ℤ) < ch ∨ ch ≤ -(n : ℤ)) → selectChannel n ch = .error .indexError) ∧
    ((1 - (n : ℤ) ≤ ch ∧ ch ≤ 0) → selectChannel n ch = .ok (ch - 1 + n).toNat) ∧
    ((1 ≤ ch ∧ ch ≤ (n : ℤ)) → selectChannel n ch = .ok (ch - 1).toNat) := by
  refine ⟨?_, ?_, ?_⟩ <;>
    · intro h
      simp only [selectChannel, numpyColIndex]
      split_ifs <;> first | rfl | (exfalso; omega)

/-- Witness for C2 at two channels with selectors 3 (raises), 0 (wraps to the
last channel) and 2 (ordinary selection). -/
theorem c2_witness :
    selectChannel 2 3 = .error .indexError ∧
    selectChannel 2 0 = .ok ((0 : ℤ) - 1 + ((2 : ℕ) : ℤ)).toNat ∧
    selectChannel 2 2 = .ok ((2 : ℤ) - 1).toNat :=
  ⟨(c2_theorem 2 3).1 (by decide), (c2_theorem 2 0).2.1 (by decide),
   (c2_theorem 2 2).2.2 (by decide)⟩

/-- A compound of two identical ZCR extractors: its instruction list repeats the
name of the ZCR feature. -/
def c3Dup : Extractor :=
  .compound (1/40) (1/100)
    [.zcr (1/40) (1/100) (some 16000), .zcr (1/40) (1/100) (some 16000)] none

/-- C3, counterexample: a Compound built from two ZCR children yields two
instruction entries that share one feature name, so the instruction list of a
Compound over an arbitrary child list can contain duplicate names. -/
theorem c3_counterexample :
    Extractor.definition c3Dup =
      .ok [(zcrName, zcrRecipeStr 400 160), (zcrName, zcrRecipeStr 400 160)] ∧
    ¬ ([zcrName, zcrName].Nodup) := by
  constructor
  · have h1 : blockSizeOf 16000 (1/40) = 400 := by
      rw [blockSizeOf, pyInt]
      norm_num [Int.floor_eq_iff]
    have h2 : blockSizeOf 16000 (1/100) = 160 := by
      rw [blockSizeOf, pyInt]
      norm_num [Int.floor_eq_iff]
    simp only [c3Dup, Extractor.definition, defList]
    rw [h1, h2]
    rfl
  · decide

/-- C3 as amended: each leaf recipe's instruction list has pairwise-distinct
names; a Compound concatenates its children's instruction lists verbatim,
performing no uniqueness check, so its name list is exactly the concatenation of
the children's name lists and is duplicate-free only when that concatenation is. -/
theorem c3_theorem (dur st : ℚ) (srz srm : ℕ) (e : Bool) (coefs : ℕ)
    (De DDe D DD : Bool) (d s : ℚ) (srq : Option ℕ) (ch : List Extractor)
    (ls : List (List (String × String)))
    (h : List.Forall₂ (fun c l => Extractor.definition c = .ok l) ch ls) :
    (∃ l, Extractor.definition (.zcr dur st (some srz)) = .ok l ∧
      (l.map Prod.fst).Nodup) ∧
    (∃ l, Extractor.definition (.mfcc dur st e coefs De DDe D DD (some srm)) = .ok l ∧
      (l.map Prod.fst).Nodup) ∧
    Extractor.definition (.compound d s ch srq) = .ok ls.flatten ∧
    ls.flatten.map Prod.fst = (ls.map (List.map Prod.fst)).flatten := by
  refine ⟨⟨_, rfl, (by decide : ([zcrName] : List String).Nodup)⟩, ?_, ?_, ?_⟩
  · cases De <;> cases D <;> cases DDe <;> cases DD <;>
      · refine ⟨_, rfl, ?_⟩
        first
        | exact (by decide : ([mfccName] : List String).Nodup)
        | exact (by decide : ([mfccName, mfccDName] : List String).Nodup)
        | exact (by decide : ([mfccName, mfccDDName] : List String).Nodup)
        | exact (by decide : ([mfccName, mfccDName, mfccDDName] : List String).Nodup)
  · simp only [Extractor.definition]
    exact defList_ok_of_forall₂ ch ls h
  · exact List.map_flatten _ _

/-- Witness for C3 with a one-child compound over a ZCR at sample rate 8000. -/
theorem c3_witness :
    (∃ l, Extractor.definition (.zcr 1 1 (some 16000)) = .ok l ∧
      (l.map Prod.fst).Nodup) ∧
    (∃ l, Extractor.definition (.mfcc 1 1 true 11 false false false false (some 16000)) =
      .ok l ∧ (l.map Prod.fst).Nodup) ∧
    Extractor.definition (.compound 1 1 [.zcr 1 1 (some 8000)] none) =
      .ok ([[(zcrName, zcrRecipeStr (blockSizeOf 8000 1) (blockSizeOf 8000 1))]] :
        List (List (String × String))).flatten ∧
    ([[(zcrName, zcrRecipeStr (blockSizeOf 8000 1) (blockSizeOf 8000 1))]] :
        List (List (String × String))).flatten.map Prod.fst =
      (([[(zcrName, zcrRecipeStr (blockSizeOf 8000 1) (blockSizeOf 8000 1))]] :
        List (List (String × String))).map (List.map Prod.fst)).flatten :=
  c3_theorem 1 1 16000 16000 true 11 false false false false 1 1 none
    [.zcr 1 1 (some 8000)]
    [[(zcrName, zcrRecipeStr (blockSizeOf 8000 1) (blockSizeOf 8000 1))]]
    (List.Forall₂.cons rfl List.Forall₂.nil)

/-- C4: when the stacked feature data contains a NaN, the tail of `__call__`
does not raise; it emits exactly the one warning formatted with the item's
unique identifier and returns the data unchanged, NaN still included. -/
theorem c4_theorem (data : List (List Val)) (uri : String) (h : anyNaN data = true) :
    finishExtraction data uri = ([nanMsg uri], data) ∧
    (∃ a b, nanMsg uri = a ++ (uri ++ b)) ∧
    anyNaN (finishExtraction data uri).2 = true := by
  refine ⟨?_, ⟨nanMsgA, nanMsgB, ?_⟩, ?_⟩
  · simp [finishExtraction, h]
  · rw [nanMsg, String.append_assoc]
  · simpa [finishExtraction] using h

/-- An example unique identifier. -/
def uriEx : String := "beet.wav"

/-- Witness for C4 on a one-by-one matrix holding a single NaN. -/
theorem c4_witness :
    anyNaN [[Val.nan]] = true ∧
    (finishExtraction [[Val.nan]] uriEx = ([nanMsg uriEx], [[Val.nan]]) ∧
     (∃ a b, nanMsg uriEx = a ++ (uriEx ++ b)) ∧
     anyNaN (finishExtraction [[Val.nan]] uriEx).2 = true) :=
  ⟨rfl, c4_theorem [[Val.nan]] uriEx rfl⟩

/-- The text `CepsIgnoreFirstCoeff=0` looked for inside the parameter string. -/
def ig0Str : String := "CepsIgnoreFirstCoeff=0"

/-- The text `CepsNbCoeffs=12` looked for inside the parameter string. -/
def nb12Str : String := "CepsNbCoeffs=12"

/-- Prefix of the base MFCC parameter string up to the ignore flag. -/
def mfccHeadA : String := "MFCC "

/-- Prefix of the base MFCC parameter string up to the coefficient count. -/
def mfccHeadB : String := "MFCC CepsIgnoreFirstCoeff=0 "

/-- C5: the MFCC dimension is e + De + DDe + coefs*(1 + D + DD) with booleans
counted 0/1, and it does not depend on the sample-rate field; with coefs=11,
e=true and all derivative flags off it equals 12, and the instruction list is a
single entry whose parameter string contains `CepsIgnoreFirstCoeff=0` and
`CepsNbCoeffs=12`. -/
theorem c5_theorem (dur st : ℚ) (sr : ℕ) (e : Bool) (coefs : ℕ) (De DDe D DD : Bool)
    (sr₁ sr₂ : Option ℕ) :
    Extractor.dimension (.mfcc dur st e coefs De DDe D DD sr₁) =
      b2n e + b2n De + b2n DDe + coefs * (1 + b2n D + b2n DD) ∧
    Extractor.dimension (.mfcc dur st e coefs De DDe D DD sr₁) =
      Extractor.dimension (.mfcc dur st e coefs De DDe D DD sr₂) ∧
    Extractor.dimension (.mfcc dur st true 11 false false false false sr₁) = 12 ∧
    ∃ s, Extractor.definition (.mfcc dur st true 11 false false false false (some sr)) =
        .ok [(mfccName, s)] ∧
      (∃ a b, s = a ++ (ig0Str ++ b)) ∧ (∃ a b, s = a ++ (nb12Str ++ b)) := by
  refine ⟨?_, rfl, rfl, ?_⟩
  · simp only [Extractor.dimension]
    ring
  · refine ⟨mfccRecipeStr 0 12 (blockSizeOf sr dur) (blockSizeOf sr st), rfl, ?_, ?_⟩
    · refine ⟨mfccHeadA, nbPre ++ (toString (12 : ℕ) ++ (blockPre ++
        (toString (blockSizeOf sr dur) ++ (stepPre ++ toString (blockSizeOf sr st))))), ?_⟩
      simp only [mfccRecipeStr, String.append_assoc]
      simp only [← String.append_assoc]
      congr 6
    · refine ⟨mfccHeadB, blockPre ++ (toString (blockSizeOf sr dur) ++
        (stepPre ++ toString (blockSizeOf sr st))), ?_⟩
      simp only [mfccRecipeStr, String.append_assoc]
      simp only [← String.append_assoc]
      congr 4

/-- C6: the first-derivative instruction is present exactly when De or D is set,
with ignore flag 0 if De else 1 and coefficient count D*coefs + De*1, and
likewise for the second derivative with DDe and DD; in the particular
configuration coefs=11, e=true, D=true, De=false the second instruction has
ignore flag 1 and coefficient count 11. -/
theorem c6_theorem (dur st : ℚ) (sr : ℕ) (e : Bool) (coefs : ℕ) (De DDe D DD : Bool) :
    Extractor.definition (.mfcc dur st e coefs De DDe D DD (some sr)) =
      .ok ([(mfccName, mfccRecipeStr (if e then 0 else 1) (coefs + b2n e * 1)
               (blockSizeOf sr dur) (blockSizeOf sr st))]
        ++ (if De || D then
              [(mfccDName, mfccRecipeStr (if De then 0 else 1)
                  (b2n D * coefs + b2n De * 1) (blockSizeOf sr dur) (blockSizeOf sr st)
                  ++ deriv1Suf)]
            else [])
        ++ (if DDe || DD then
              [(mfccDDName, mfccRecipeStr (if DDe then 0 else 1)
                  (b2n DD * coefs + b2n DDe * 1) (blockSizeOf sr dur) (blockSizeOf sr st)
                  ++ deriv2Suf)]
            else [])) ∧
    Extractor.definition (.mfcc dur st true 11 false false true false (some sr)) =
      .ok [(mfccName, mfccRecipeStr 0 12 (blockSizeOf sr dur) (blockSizeOf sr st)),
           (mfccDName, mfccRecipeStr 1 11 (blockSizeOf sr dur) (blockSizeOf sr st)
             ++ deriv1Suf)] :=
  ⟨rfl, rfl⟩

/-- C7: a Compound's dimension is the sum of its children's dimensions, and its
instruction list is the concatenation of the children's instruction lists in
child order. -/
theorem c7_theorem (d s : ℚ) (srq : Option ℕ) (ch : List Extractor)
    (ls : List (List (String × String)))
    (h : List.Forall₂ (fun c l => Extractor.definition c = .ok l) ch ls) :
    Extractor.dimension (.compound d s ch srq) = (ch.map Extractor.dimension).sum ∧
    Extractor.definition (.compound d s ch srq) = .ok ls.flatten := by
  constructor
  · simp only [Extractor.dimension]
    exact dimSum_eq_sum ch
  · simp only [Extractor.definition]
    exact defList_ok_of_forall₂ ch ls h

/-- Witness for C7 with a ZCR child and an MFCC child at sample rate 4000. -/
theorem c7_witness :
    Extractor.dimension (.compound 1 1
      [.zcr 1 1 (some 4000), .mfcc 1 1 true 11 false false false false (some 4000)]
      none) =
      ([.zcr 1 1 (some 4000), .mfcc 1 1 true 11 false false false false (some 4000)].map
        Extractor.dimension).sum ∧
    Extractor.definition (.compound 1 1
      [.zcr 1 1 (some 4000), .mfcc 1 1 true 11 false false false false (some 4000)]
      none) =
      .ok ([[(zcrName, zcrRecipeStr (blockSizeOf 4000 1) (blockSizeOf 4000 1))],
            [(mfccName, mfccRecipeStr 0 12 (blockSizeOf 4000 1) (blockSizeOf 4000 1))]] :
        List (List (String × String))).flatten :=
  c7_theorem 1 1 none
    [.zcr 1 1 (some 4000), .mfcc 1 1 true 11 false false false false (some 4000)]
    [[(zcrName, zcrRecipeStr (blockSizeOf 4000 1) (blockSizeOf 4000 1))],
     [(mfccName, mfccRecipeStr 0 12 (blockSizeOf 4000 1) (blockSizeOf 4000 1))]]
    (List.Forall₂.cons rfl (List.Forall₂.cons rfl List.Forall₂.nil))

/-- C8: building a Compound succeeds exactly when every child agrees on both
duration and step (otherwise the constructor raises an assertion error), and on
a successfully built compound no duration/step-mismatch error can arise at
instruction-building time — the only later error is the missing-sample-rate
`AttributeError`. -/
theorem c8_theorem (ext : List Extractor) (d s : ℚ) :
    (mkCompound ext d s = .ok (.compound d s ext none) ↔
      ∀ x ∈ ext, x.duration = d ∧ x.step = s) ∧
    ((¬ ∀ x ∈ ext, x.duration = d ∧ x.step = s) →
      mkCompound ext d s = .error .assertionError) ∧
    (∀ c, mkCompound ext d s = .ok c →
      ∀ err, Extractor.definition c = .error err → err = .attributeError) := by
  refine ⟨⟨?_, ?_⟩, ?_, ?_⟩
  · intro hok
    by_cases h1 : ext.all (fun x => x.duration == d) = true
    · by_cases h2 : ext.all (fun x => x.step == s) = true
      · intro x hx
        have hd := (List.all_eq_true.mp h1) x hx
        have hs := (List.all_eq_true.mp h2) x hx
        exact ⟨by simpa using hd, by simpa using hs⟩
      · rw [mkCompound, if_pos h1, if_neg h2] at hok
        cases hok
    · rw [mkCompound, if_neg h1] at hok
      cases hok
  · intro hall
    have h1 : ext.all (fun x => x.duration == d) = true := by
      rw [List.all_eq_true]
      intro x hx
      simpa using (hall x hx).1
    have h2 : ext.all (fun x => x.step == s) = true := by
      rw [List.all_eq_true]
      intro x hx
      simpa using (hall x hx).2
    rw [mkCompound, if_pos h1, if_pos h2]
  · intro hnall
    by_cases h1 : ext.all (fun x => x.duration == d) = true
    · by_cases h2 : ext.all (fun x => x.step == s) = true
      · exfalso
        apply hnall
        intro x hx
        have hd := (List.all_eq_true.mp h1) x hx
        have hs := (List.all_eq_true.mp h2) x hx
        exact ⟨by simpa using hd, by simpa using hs⟩
      · rw [mkCompound, if_pos h1, if_neg h2]
    · rw [mkCompound, if_neg h1]
  · intro c _ err hdef
    exact defError_attr c err hdef

/-- Witness for C8: one agreeing child builds, a step mismatch fails at
construction, and the definition of the built compound can only raise the
missing-sample-rate error. -/
theorem c8_witness :
    mkCompound [.zcr 1 2 none] 1 2 = .ok (.compound 1 2 [.zcr 1 2 none] none) ∧
    mkCompound [.zcr 1 2 none] 1 3 = .error .assertionError ∧
    PyErr.attributeError = PyErr.attributeError :=
  ⟨(c8_theorem [.zcr 1 2 none] 1 2).1.mpr (by decide),
   (c8_theorem [.zcr 1 2 none] 1 3).2.1 (by decide),
   (c8_theorem [.zcr 1 2 none] 1 2).2.2 (.compound 1 2 [.zcr 1 2 none] none)
     ((c8_theorem [.zcr 1 2 none] 1 2).1.mpr (by decide)) .attributeError rfl⟩

/-- C9: the timing model computes 1 + num_samples // hop_length frames when the
transform is centered and 1 + (num_samples - window_length) // hop_length frames
otherwise (the window length being the transform's FFT size), with the stated
values at hop length 160. -/
theorem c9_theorem (m : SegModelCfg) (n : ℕ) :
    (m.center = true → num_frames m n = 1 + ((n / m.hop_length : ℕ) : ℤ)) ∧
    (m.center = false →
      num_frames m n = 1 + Int.fdiv ((n : ℤ) - (m.n_fft : ℤ)) (m.hop_length : ℤ)) ∧
    num_frames ⟨160, 400, true⟩ 0 = 1 ∧
    num_frames ⟨160, 400, true⟩ 160 = 2 ∧
    num_frames ⟨160, 400, true⟩ 159 = 1 := by
  refine ⟨?_, ?_, by decide, by decide, by decide⟩
  · intro h
    simp only [num_frames, h, if_true]
    rw [Int.fdiv_eq_ediv _ (by positivity)]
    omega
  · intro h
    simp only [num_frames, h, Bool.false_eq_true, if_false]

/-- Witness for C9 in both the centered and the non-centered configuration. -/
theorem c9_witness :
    num_frames ⟨160, 400, true⟩ 159 = 1 + ((159 / 160 : ℕ) : ℤ) ∧
    num_frames ⟨160, 400, false⟩ 500 =
      1 + Int.fdiv (((500 : ℕ) : ℤ) - ((400 : ℕ) : ℤ)) ((160 : ℕ) : ℤ) :=
  ⟨(c9_theorem ⟨160, 400, true⟩ 159).1 rfl,
   (c9_theorem ⟨160, 400, false⟩ 500).2.1 rfl⟩

/-- C10, counterexample: two fresh recipe instances on which no extraction call
was ever made return values instead of raising — a Compound over an empty child
list succeeds for both the instruction-building operation and the hash, and a
fresh ZCR's hash succeeds through Python's default object hash, since only
`YaafeCompound` defines `__hash__`. -/
theorem c10_counterexample :
    (freshB (.compound 1 1 [] none) = true ∧
     Extractor.definition (.compound 1 1 [] none) = .ok [] ∧
     Extractor.hashE (.compound 1 1 [] none) = .ok (tupleHash [])) ∧
    (freshB (.zcr 1 1 none) = true ∧
     Extractor.hashE (.zcr 1 1 none) = .ok 0) :=
  ⟨⟨rfl, rfl, rfl⟩, rfl, rfl⟩

/-- C10 as amended: on every recipe instance that contains at least one leaf
recipe (ZCR or MFCC) and on which no extraction call was ever made, the
instruction-building operation raises `AttributeError`, because the sample-rate
attribute is first assigned inside the extraction call; the hash raises that
error only when the instance is a Compound — the one class defining
`__hash__` — while a fresh leaf's hash falls back to Python's default object
hash and returns a value. -/
theorem c10_theorem (ex : Extractor) (h1 : freshB ex = true) (h2 : hasLeafB ex = true) :
    Extractor.definition ex = .error .attributeError ∧
    ((∃ d s ch sr, ex = .compound d s ch sr) →
      Extractor.hashE ex = .error .attributeError) ∧
    ((∃ dur st sr, ex = .zcr dur st sr) ∨
      (∃ dur st e coefs De DDe D DD sr, ex = .mfcc dur st e coefs De DDe D DD sr) →
      ∃ v, Extractor.hashE ex = .ok v) := by
  have hdef : Extractor.definition ex = .error .attributeError := by
    rcases def_fresh_dichotomy ex h1 with ⟨_, hd⟩ | ⟨hl, _⟩
    · exact hd
    · rw [h2] at hl
      cases hl
  refine ⟨hdef, ?_, ?_⟩
  · rintro ⟨d, s, ch, sr, rfl⟩
    rw [Extractor.hashE, hdef]
    rfl
  · rintro (⟨dur, st, sr, rfl⟩ | ⟨dur, st, e, coefs, De, DDe, D, DD, sr, rfl⟩) <;>
      exact ⟨0, rfl⟩

/-- Witness for C10 on a fresh ZCR (definition raises, hash succeeds) and a
fresh one-child Compound (hash raises). -/
theorem c10_witness :
    Extractor.definition (.zcr 1 1 none) = .error .attributeError ∧
    (∃ v, Extractor.hashE (.zcr 1 1 none) = .ok v) ∧
    Extractor.hashE (.compound 1 1 [.zcr 1 1 none] none) = .error .attributeError :=
  ⟨(c10_theorem (.zcr 1 1 none) rfl rfl).1,
   (c10_theorem (.zcr 1 1 none) rfl rfl).2.2 (Or.inl ⟨1, 1, none, rfl⟩),
   (c10_theorem (.compound 1 1 [.zcr 1 1 none] none) rfl rfl).2.1
     ⟨1, 1, [.zcr 1 1 none], none, rfl⟩⟩
